import Mathlib

/-!
Shallow embedding of the sistema-cardapio order/pricing/query engine.

This file models, in Lean, the core logic of the restaurant ordering
backend:

* `OrderRepository.createOrder` (amount calculation),
  `OrderRepository.updateStatus`, `OrderRepository.cancel`,
  `OrderRepository.addPayment`, `OrderRepository.findWithQuery`,
  `OrderRepository.getAnalytics` (server/src/services/OrderRepository.ts);
* `CouponRepository.findByCode` / `CouponRepository.validateCoupon`
  (server/src/services/index.ts);
* `ProductRepository.findWithQuery` (server/src/services/ProductRepository.ts);
* the client cart's coupon application `handleApplyCoupon`
  (src/components/cart/CartDrawer.tsx) and the mock service's `getCoupon`
  (src/lib/mock-service.ts).

Conventions of the embedding:

* Monetary values are integer minor units and are modelled as `Nat`
  (the validation schemas only admit non-negative integers).
* Timestamps (`Date` values) are modelled as `Nat` epoch instants; code
  that calls `new Date()` takes the current instant as an explicit
  `now` parameter.
* JavaScript `Math.round(x * 0.1)` / `Math.round(x * (v / 100))` on
  integer inputs is modelled as exact round-half-up rational rounding,
  `(x + 5) / 10` resp. `(x * v + 50) / 100` in `Nat` arithmetic.
* The Firestore collection is modelled as an association list
  `List (String × Order)` keyed by document id; `findWhere`
  materializes, in store order, the entries matching a predicate.
* Fallible operations return `Except String`; an `Except.error` result
  carries no store, i.e. the store is unchanged on failure.
-/

namespace CardapioModel

/-- Order status enumeration (models/types.ts `OrderStatus`). -/
inductive OrderStatus where
  | draft
  | placed
  | confirmed
  | in_preparation
  | ready
  | served
  | closed
  | canceled
deriving DecidableEq, Repr

/-- All eight order statuses, in declaration order (the keys the analytics
initializer enumerates). -/
def allStatuses : List OrderStatus :=
  [.draft, .placed, .confirmed, .in_preparation, .ready, .served, .closed, .canceled]

/-- Order channel enumeration (models/types.ts `OrderChannel`). -/
inductive OrderChannel where
  | dine_in
  | takeaway
  | delivery
deriving DecidableEq, Repr

/-- All three order channels (the keys the analytics initializer enumerates). -/
def allChannels : List OrderChannel :=
  [.dine_in, .takeaway, .delivery]

/-- A selected product option on an order line (models/types.ts `SelectedOption`). -/
structure SelectedOption where
  id : String
  name : String
  choice : String
  price : Nat
deriving DecidableEq, Repr

/-- An order line item (models/types.ts `OrderItem`). -/
structure OrderItem where
  productId : String
  name : String
  qty : Nat
  unitPrice : Nat
  options : List SelectedOption
  notes : Option String := none
deriving DecidableEq, Repr

/-- The fee sub-object of `Order.amounts`; `none` models an omitted
(`undefined`) field. -/
structure Fees where
  service : Option Nat
  delivery : Option Nat
deriving DecidableEq, Repr

/-- The computed `amounts` object of an order. -/
structure Amounts where
  subtotal : Nat
  discounts : Nat
  fees : Fees
  total : Nat
deriving DecidableEq, Repr

/-- A payment record (models/types.ts `Payment`). -/
inductive PaymentMethod where
  | cash
  | card
  | pix
  | online
deriving DecidableEq, Repr

/-- A payment appended to an order. -/
structure Payment where
  method : PaymentMethod
  amount : Nat
  changeDue : Option Nat := none
deriving DecidableEq, Repr

/-- Optional customer info on an order. -/
structure Customer where
  name : Option String := none
  phone : Option String := none
deriving DecidableEq, Repr

/-- An order document (models/types.ts `Order`), without the store-assigned
document id (documents are keyed by id in the store model). -/
structure Order where
  items : List OrderItem
  status : OrderStatus
  channel : OrderChannel
  amounts : Amounts
  tableId : Option String := none
  customer : Option Customer := none
  payments : Option (List Payment) := none
  orderNumber : Option Nat := none
  cancelReason : Option String := none
  createdAt : Nat := 0
  updatedAt : Nat := 0
  closedAt : Option Nat := none
deriving DecidableEq, Repr

/-! ## Money & fee calculation (OrderRepository.createOrder) -/

/-- Sum of the option surcharges of one line item:
`item.options.reduce((optSum, opt) => optSum + opt.price, 0)`. -/
def optionsPrice (options : List SelectedOption) : Nat :=
  options.foldl (fun optSum opt => optSum + opt.price) 0

/-- The subtotal reduction of `createOrder`:
`items.reduce((sum, item) => sum + (item.unitPrice + optionsPrice) * item.qty, 0)`. -/
def orderSubtotal (items : List OrderItem) : Nat :=
  items.foldl (fun sum item => sum + (item.unitPrice + optionsPrice item.options) * item.qty) 0

/-- Models `Math.round(subtotal * 0.1)` on an integer subtotal as exact
round-half-up of `subtotal / 10`. -/
def roundTenth (subtotal : Nat) : Nat :=
  (subtotal + 5) / 10

/-- `serviceFee = orderData.channel === 'dine_in' ? Math.round(subtotal * 0.1) : 0`. -/
def serviceFeeOf (channel : OrderChannel) (subtotal : Nat) : Nat :=
  if channel = .dine_in then roundTenth subtotal else 0

/-- `deliveryFee = orderData.channel === 'delivery' ? 500 : 0`. -/
def deliveryFeeOf (channel : OrderChannel) : Nat :=
  if channel = .delivery then 500 else 0

/-- Models the JavaScript idiom `n || undefined` on a number: `0` is falsy,
so a zero fee is omitted from the stored object. -/
def orUndefined (n : Nat) : Option Nat :=
  if n = 0 then none else some n

/-- The `amounts` object assembled by `OrderRepository.createOrder`. -/
def createOrderAmounts (items : List OrderItem) (channel : OrderChannel) : Amounts :=
  let subtotal := orderSubtotal items
  let serviceFee := serviceFeeOf channel subtotal
  let deliveryFee := deliveryFeeOf channel
  { subtotal := subtotal
    discounts := 0
    fees := { service := orUndefined serviceFee, delivery := orUndefined deliveryFee }
    total := subtotal + serviceFee + deliveryFee }

/-- The order document assembled by `OrderRepository.createOrder` (the random
4-digit `orderNumber` and the store write timestamp are taken as parameters). -/
def createOrder (items : List OrderItem) (channel : OrderChannel)
    (tableId : Option String) (customer : Option Customer)
    (orderNumber : Nat) (now : Nat) : Order :=
  { items := items
    status := .placed
    channel := channel
    amounts := createOrderAmounts items channel
    tableId := tableId
    customer := customer
    orderNumber := some orderNumber
    createdAt := now
    updatedAt := now }

/-! ## Status transitions (OrderRepository.updateStatus / cancel) -/

/-- `OrderRepository.updateStatus`: builds `updates = { status }`, adds
`closedAt = new Date()` only when the requested status is `closed`, and
merges the updates into the document (`BaseRepository.update`, which also
refreshes `updatedAt`). -/
def updateStatus (o : Order) (status : OrderStatus) (now : Nat) : Order :=
  let base := { o with status := status, updatedAt := now }
  if status = .closed then { base with closedAt := some now } else base

/-- `OrderRepository.cancel`: sets status `canceled` and `closedAt = new Date()`
unconditionally; `cancelReason` is included only when `reason` is truthy
(a present, non-empty string). -/
def cancel (o : Order) (reason : Option String) (now : Nat) : Order :=
  let base := { o with status := .canceled, closedAt := some now, updatedAt := now }
  match reason with
  | some r => if r = "" then base else { base with cancelReason := some r }
  | none => base

/-! ## Store model and addPayment (BaseRepository / OrderRepository.addPayment) -/

/-- The orders collection: documents keyed by id, in store order. -/
def OrderStore := List (String × Order)

/-- `BaseRepository.findById`: the document with the given id, or `null`. -/
def findById (store : OrderStore) (id : String) : Option Order :=
  (store.find? (fun e => e.1 == id)).map (fun e => e.2)

/-- `BaseRepository.update`: merge an update function into the document with
the given id (the update also refreshes `updatedAt`, folded into `f`). -/
def storeUpdate (store : OrderStore) (id : String) (f : Order → Order) : OrderStore :=
  store.map (fun e => if e.1 == id then (e.1, f e.2) else e)

/-- `OrderRepository.addPayment`: read the order, fail when absent, else
append the payment to `order.payments || []` and write the new sequence
back. The thrown error is modelled as an `Except.error`, which carries no
store: a failed call leaves the store unchanged. -/
def addPayment (store : OrderStore) (id : String) (payment : Payment) (now : Nat) :
    Except String OrderStore :=
  match findById store id with
  | none => .error "Failed to add payment: Error: Order not found"
  | some o =>
      let payments := o.payments.getD [] ++ [payment]
      .ok (storeUpdate store id (fun doc => { doc with payments := some payments, updatedAt := now }))

/-! ## Coupons (CouponRepository, server/src/services/index.ts) -/

/-- Coupon type enumeration. -/
inductive CouponType where
  | percent
  | fixed
deriving DecidableEq, Repr

/-- A coupon document (models/types.ts `Coupon`). -/
structure Coupon where
  code : String
  type : CouponType
  value : Nat
  validFrom : Nat
  validTo : Nat
  minSubtotal : Option Nat := none
  active : Bool := true
deriving DecidableEq, Repr

/-- ASCII upper-casing of one character, as JavaScript's `toUpperCase`
behaves on the ASCII range. -/
def upperChar (c : Char) : Char :=
  if 'a' ≤ c ∧ c ≤ 'z' then Char.ofNat (c.toNat - 32) else c

/-- Models JavaScript `s.toUpperCase()` (ASCII range). -/
def jsToUpper (s : String) : String :=
  ⟨s.data.map upperChar⟩

/-- ASCII lower-casing of one character, as JavaScript's `toLowerCase`
behaves on the ASCII range. -/
def lowerChar (c : Char) : Char :=
  if 'A' ≤ c ∧ c ≤ 'Z' then Char.ofNat (c.toNat + 32) else c

/-- Models JavaScript `s.toLowerCase()` (ASCII range). -/
def jsToLower (s : String) : String :=
  ⟨s.data.map lowerChar⟩

/-- `CouponRepository.findByCode`: `findWhere('code', '==', code.toUpperCase())`
then `coupons[0] || null` — the first stored coupon whose code equals the
upper-cased input. -/
def findByCode (coupons : List Coupon) (code : String) : Option Coupon :=
  (coupons.filter (fun c => c.code == jsToUpper code)).head?

/-- The symbolic identity of the `error` string returned by `validateCoupon`;
`belowMinimum` carries the `minSubtotal` interpolated into the message. -/
inductive CouponError where
  | notFound
  | inactive
  | notYetValid
  | expired
  | belowMinimum (minSubtotal : Nat)
deriving DecidableEq, Repr

/-- The `{ valid, coupon?, error? }` object returned by `validateCoupon`. -/
structure ValidationResult where
  valid : Bool
  coupon : Option Coupon := none
  error : Option CouponError := none
deriving DecidableEq, Repr

/-- Models the JavaScript truthiness test
`coupon.minSubtotal && subtotal < coupon.minSubtotal`: an absent or zero
(falsy) `minSubtotal` never blocks. -/
def minSubtotalBlocks (minSubtotal : Option Nat) (subtotal : Nat) : Bool :=
  match minSubtotal with
  | none => false
  | some m => !(m == 0) && subtotal < m

/-- `CouponRepository.validateCoupon`: sequential short-circuit checks —
lookup by upper-cased code, `active`, `now < validFrom`, `now > validTo`,
minimum subtotal — each returning its distinct error, else valid. -/
def validateCoupon (coupons : List Coupon) (code : String) (subtotal : Nat) (now : Nat) :
    ValidationResult :=
  match findByCode coupons code with
  | none => { valid := false, error := some .notFound }
  | some coupon =>
      if !coupon.active then
        { valid := false, error := some .inactive }
      else if now < coupon.validFrom then
        { valid := false, error := some .notYetValid }
      else if coupon.validTo < now then
        { valid := false, error := some .expired }
      else if minSubtotalBlocks coupon.minSubtotal subtotal then
        { valid := false, error := some (.belowMinimum (coupon.minSubtotal.getD 0)) }
      else
        { valid := true, coupon := some coupon }

/-! ## Client cart coupon application (CartDrawer.handleApplyCoupon) -/

/-- `MockService.getCoupon`: the first demo coupon matching the upper-cased
code that is active and inside its validity window. -/
def mockGetCoupon (coupons : List Coupon) (code : String) (now : Nat) : Option Coupon :=
  coupons.find? (fun c =>
    c.code == jsToUpper code && c.active && c.validFrom ≤ now && now ≤ c.validTo)

/-- Models `Math.round(subtotal * (value / 100))` on integers as exact
round-half-up of `subtotal * value / 100`. -/
def roundPercent (subtotal value : Nat) : Nat :=
  (subtotal * value + 50) / 100

/-- The discount computed by `handleApplyCoupon` (CartDrawer.tsx lines 81-87):
percent coupons round the percentage, fixed coupons use `value` directly;
no cap against the subtotal is applied. -/
def couponDiscount (coupon : Coupon) (subtotal : Nat) : Nat :=
  match coupon.type with
  | .percent => roundPercent subtotal coupon.value
  | .fixed => coupon.value

/-- The outcome of `handleApplyCoupon` given the coupon lookup result and the
cart subtotal: `none` when the coupon is rejected (not found or below the
minimum subtotal), otherwise the discount passed to `applyCoupon`. -/
def handleApplyCoupon (coupon : Option Coupon) (subtotal : Nat) : Option Nat :=
  match coupon with
  | none => none
  | some c =>
      if minSubtotalBlocks c.minSubtotal subtotal then none
      else some (couponDiscount c subtotal)

/-! ## Pagination executor (OrderRepository/ProductRepository.findWithQuery) -/

/-- The `{ items, total, totalPages, currentPage }` result shape. -/
structure QueryResult (α : Type) where
  items : List α
  total : Nat
  totalPages : Nat
  currentPage : Nat
deriving DecidableEq, Repr

/-- Models `Math.ceil(total / limit)` on non-negative integers. -/
def ceilDiv (total limit : Nat) : Nat :=
  (total + limit - 1) / limit

/-- The pagination step of `findWithQuery`, over the filtered and sorted
document sequence `docs`: `offset = (page - 1) * limit`; when `offset > 0`
the store query is issued with `limit = offset + limit` and the first
`offset` results are sliced away client-side, otherwise the store query is
issued with `limit` alone. -/
def paginate {α : Type} (docs : List α) (page limit : Nat) : List α :=
  let offset := (page - 1) * limit
  if offset > 0 then (docs.take (offset + limit)).drop offset
  else docs.take limit

/-- `OrderRepository.findWithQuery` after filter/sort compilation: `docs` is
the filtered, sorted document sequence; `total` comes from the independent
count query over the same filters. -/
def findWithQuery {α : Type} (docs : List α) (page limit : Nat) : QueryResult α :=
  { items := paginate docs page limit
    total := docs.length
    totalPages := ceilDiv docs.length limit
    currentPage := page }

/-! ## Product query with in-memory search (ProductRepository.findWithQuery) -/

/-- A product document, restricted to the fields the text search reads. -/
structure Product where
  name : String
  description : String
deriving DecidableEq, Repr

/-- Whether `needle` occurs at the very start of `haystack`. -/
def startsWithChars : List Char → List Char → Bool
  | _, [] => true
  | [], _ :: _ => false
  | c :: cs, d :: ds => c == d && startsWithChars cs ds

/-- Whether `needle` occurs contiguously anywhere in `haystack`. -/
def containsChars : List Char → List Char → Bool
  | [], needle => needle.isEmpty
  | c :: cs, needle => startsWithChars (c :: cs) needle || containsChars cs needle

/-- Models JavaScript `haystack.includes(needle)` on strings. -/
def jsIncludes (haystack needle : String) : Bool :=
  containsChars haystack.data needle.data

/-- The in-memory search predicate of `ProductRepository.findWithQuery`:
`product.name.toLowerCase().includes(searchLower) ||
 product.description.toLowerCase().includes(searchLower)`. -/
def productMatchesSearch (search : String) (p : Product) : Bool :=
  jsIncludes (jsToLower p.name) (jsToLower search)
    || jsIncludes (jsToLower p.description) (jsToLower search)

/-- `ProductRepository.findWithQuery`: paginate the filtered, sorted sequence
`docs`, then — only `if (queryParams.search)` is truthy (present and
non-empty) — filter the materialized page in memory; `total`/`totalPages`
come from the count query taken before the search filter. -/
def productFindWithQuery (docs : List Product) (page limit : Nat) (search : Option String) :
    QueryResult Product :=
  let pageDocs := paginate docs page limit
  let products :=
    match search with
    | some term => if term = "" then pageDocs else pageDocs.filter (productMatchesSearch term)
    | none => pageDocs
  { items := products
    total := docs.length
    totalPages := ceilDiv docs.length limit
    currentPage := page }

/-! ## Analytics aggregator (OrderRepository.getAnalytics) -/

/-- `totalRevenue = orders.reduce((sum, order) => sum + order.amounts.total, 0)`. -/
def totalRevenue (orders : List Order) : Nat :=
  orders.foldl (fun sum o => sum + o.amounts.total) 0

/-- `averageOrderValue = totalOrders > 0 ? totalRevenue / totalOrders : 0`,
with the JavaScript number division modelled as exact rational division. -/
def averageOrderValue (orders : List Order) : ℚ :=
  if orders.length > 0 then (totalRevenue orders : ℚ) / (orders.length : ℚ) else 0

/-- One increment step of the `ordersByStatus` record: the map starts with
every status key at 0 and `ordersByStatus[order.status]++` bumps one key. -/
def bumpStatus (m : OrderStatus → Nat) (s : OrderStatus) : OrderStatus → Nat :=
  fun t => if t = s then m t + 1 else m t

/-- The `ordersByStatus` record: initialized with all eight enum keys at 0,
then incremented per order. -/
def ordersByStatus (orders : List Order) : OrderStatus → Nat :=
  orders.foldl (fun m o => bumpStatus m o.status) (fun _ => 0)

/-- One increment step of the `ordersByChannel` record. -/
def bumpChannel (m : OrderChannel → Nat) (c : OrderChannel) : OrderChannel → Nat :=
  fun t => if t = c then m t + 1 else m t

/-- The `ordersByChannel` record: initialized with all three enum keys at 0,
then incremented per order. -/
def ordersByChannel (orders : List Order) : OrderChannel → Nat :=
  orders.foldl (fun m o => bumpChannel m o.channel) (fun _ => 0)

/-- The per-product aggregate held in `productStats`. -/
structure ProductStat where
  name : String
  quantity : Nat
  revenue : Nat
deriving DecidableEq, Repr

/-- Lookup in the insertion-ordered `productStats` record
(`productStats[item.productId]`). -/
def lookupStat (stats : List (String × ProductStat)) (productId : String) :
    Option ProductStat :=
  (stats.find? (fun e => e.1 == productId)).map (fun e => e.2)

/-- One item's contribution to `productStats`: insert
`{ name: item.name, quantity: 0, revenue: 0 }` when the key is absent, then
add `item.qty` to `quantity` and `item.unitPrice * item.qty` to `revenue`
(option surcharges are not included in the revenue). -/
def statInsert (stats : List (String × ProductStat)) (item : OrderItem) :
    List (String × ProductStat) :=
  let ensured :=
    if (lookupStat stats item.productId).isSome then stats
    else stats ++ [(item.productId, { name := item.name, quantity := 0, revenue := 0 })]
  ensured.map (fun e =>
    if e.1 == item.productId then
      (e.1, { e.2 with
                quantity := e.2.quantity + item.qty
                revenue := e.2.revenue + item.unitPrice * item.qty })
    else e)

/-- The `productStats` record accumulated over every item of every order,
in encounter order (JavaScript objects preserve string-key insertion order). -/
def productStats (orders : List Order) : List (String × ProductStat) :=
  orders.foldl (fun stats o => o.items.foldl statInsert stats) []

/-- The comparator `(a, b) => b.revenue - a.revenue` as a boolean
"less-or-equal": descending by revenue. -/
def revenueDesc (a b : String × ProductStat) : Bool :=
  b.2.revenue ≤ a.2.revenue

/-- `topProducts`: the entries of `productStats`, stably sorted descending by
revenue and truncated to the first 10. -/
def topProducts (orders : List Order) : List (String × ProductStat) :=
  ((productStats orders).mergeSort revenueDesc).take 10

/-! ## Concrete sample data used by witnesses and counterexamples -/

/-- The line items of the end-to-end pricing example:
one item at 2890 with a single 590 option. -/
def exampleItems : List OrderItem :=
  [{ productId := "p1", name := "burger", qty := 1, unitPrice := 2890,
     options := [{ id := "o1", name := "extra", choice := "cheese", price := 590 }] }]

/-- A freshly created sample order (status `placed`, `closedAt` unset). -/
def sampleOrder : Order :=
  createOrder exampleItems .dine_in (some "t1") none 1234 0

/-- A fixed coupon whose value (1000) exceeds a 500 subtotal; active and
inside its validity window, with no minimum subtotal. -/
def overCoupon : Coupon :=
  { code := "SAVE10", type := .fixed, value := 1000, validFrom := 0, validTo := 100 }

/-- A 10 percent coupon matching the spec's end-to-end example. -/
def pctCoupon : Coupon :=
  { code := "PCT10", type := .percent, value := 10, validFrom := 0, validTo := 100 }

/-- A coupon that is simultaneously inactive and expired. -/
def staleCoupon : Coupon :=
  { code := "OLD", type := .fixed, value := 100, validFrom := 0, validTo := 10,
    active := false }

/-- Every line item of every order, in encounter order. -/
def allItems (orders : List Order) : List OrderItem :=
  (orders.map Order.items).flatten

/-- Total quantity sold of one product over a list of items. -/
def qtySold (pid : String) (items : List OrderItem) : Nat :=
  ((items.filter (fun it => it.productId == pid)).map OrderItem.qty).sum

/-- Total revenue (`unitPrice * qty`, excluding option surcharges) of one
product over a list of items. -/
def revenueSold (pid : String) (items : List OrderItem) : Nat :=
  ((items.filter (fun it => it.productId == pid)).map
    (fun it => it.unitPrice * it.qty)).sum

/-- The (quantity, revenue) aggregate recorded for a product id. -/
def statAgg (stats : List (String × ProductStat)) (pid : String) : Option (Nat × Nat) :=
  (lookupStat stats pid).map (fun st => (st.quantity, st.revenue))


/-- The "Coupon not found" result. -/
def notFoundRes : ValidationResult := { valid := false, error := some .notFound }

/-- The "Coupon is not active" result. -/
def inactiveRes : ValidationResult := { valid := false, error := some .inactive }

/-- The "Coupon is not yet valid" result. -/
def notYetValidRes : ValidationResult := { valid := false, error := some .notYetValid }

/-- The "Coupon has expired" result. -/
def expiredRes : ValidationResult := { valid := false, error := some .expired }

/-- The "Minimum order value required" result. -/
def belowMinimumRes (m : Nat) : ValidationResult :=
  { valid := false, error := some (.belowMinimum m) }

/-- The successful result carrying the coupon. -/
def validRes (c : Coupon) : ValidationResult := { valid := true, coupon := some c }


/-- Two sample products for the search witness. -/
def sampleProducts : List Product :=
  [{ name := "Hamburger", description := "beef patty" },
   { name := "Salada", description := "verde" }]


/-- A one-document sample store. -/
def sampleStore : OrderStore := [("o1", sampleOrder)]

/-- A sample cash payment. -/
def samplePayment : Payment := { method := .cash, amount := 3828 }


/-! ## C6 — updateStatus applies any requested status -/

/-- C6: for every stored order and every requested status, `updateStatus`
persists the requested status regardless of the order's current status; no
(current, requested) pair is rejected. -/
theorem updateStatus_applies_any_status (o : Order) (s : OrderStatus) (now : Nat) :
    (updateStatus o s now).status = s := by
  unfold updateStatus
  split <;> rfl

/-! ## C2 — closedAt behaviour of updateStatus (corrected) -/

/-- C2 counterexample: the claim "updateStatus sets closedAt whenever the
requested status is closed or canceled, and re-applying the same terminal
status does not change the stored closedAt" is false on the code:
requesting `canceled` at time 5 on a fresh order leaves `closedAt` unset,
and re-applying `closed` at time 7 to an order closed at time 1 overwrites
`closedAt`. -/
theorem updateStatus_closedAt_counterexample :
    ((updateStatus sampleOrder .canceled 5).closedAt ≠ some 5) ∧
    ((updateStatus (updateStatus sampleOrder .closed 1) .closed 7).closedAt
        ≠ (updateStatus sampleOrder .closed 1).closedAt) := by
  constructor <;> decide

/-- C2 amended: `updateStatus` sets `closedAt` to the transition time exactly
when the requested status is `closed`, and does so on every application
(overwriting any stored value); for every other requested status, including
`canceled`, it leaves `closedAt` unchanged. `closedAt` for cancellation is
set (likewise unconditionally overwritten) only by the separate `cancel`
operation. -/
theorem updateStatus_closedAt_amended (o : Order) (s : OrderStatus)
    (reason : Option String) (now : Nat) :
    ((updateStatus o s now).closedAt = if s = .closed then some now else o.closedAt) ∧
    ((cancel o reason now).closedAt = some now) ∧
    ((cancel o reason now).status = .canceled) := by
  refine ⟨?_, ?_, ?_⟩
  · unfold updateStatus
    split <;> simp_all
  · unfold cancel
    cases reason with
    | none => rfl
    | some r => dsimp only; split <;> rfl
  · unfold cancel
    cases reason with
    | none => rfl
    | some r => dsimp only; split <;> rfl

/-! ## C8 — averageOrderValue never divides by zero -/

/-- C8: `averageOrderValue` equals `totalRevenue / totalOrders` (exact
division) when the matching order set is non-empty, and equals 0 when it is
empty; the division is never taken with a zero denominator. -/
theorem averageOrderValue_safe (orders : List Order) :
    (orders ≠ [] → averageOrderValue orders
        = (totalRevenue orders : ℚ) / (orders.length : ℚ)) ∧
    (orders = [] → averageOrderValue orders = 0) := by
  constructor
  · intro h
    unfold averageOrderValue
    rw [if_pos (List.length_pos.mpr h)]
  · intro h
    subst h
    rfl

/-- C8 witness: a singleton order set takes the division branch. -/
theorem averageOrderValue_safe_witness :
    [sampleOrder] ≠ [] ∧
    averageOrderValue [sampleOrder]
      = (totalRevenue [sampleOrder] : ℚ) / (([sampleOrder] : List Order).length : ℚ) :=
  ⟨by simp, (averageOrderValue_safe [sampleOrder]).1 (by simp)⟩

/-! ## C4 — cart coupon discount is not capped (corrected) -/

/-- C4 counterexample: a fixed coupon of value 1000, returned by the coupon
lookup and subject to no minimum subtotal, is applied to a subtotal of 500
with discount 1000 — the discount exceeds the subtotal, so the claimed cap
does not hold. -/
theorem couponDiscount_cap_counterexample :
    mockGetCoupon [overCoupon] "save10" 50 = some overCoupon ∧
    handleApplyCoupon (mockGetCoupon [overCoupon] "save10" 50) 500 = some 1000 ∧
    ¬(1000 ≤ 500) := by
  refine ⟨?_, ?_, by decide⟩ <;> decide

/-- C4 amended: for every coupon accepted by the cart's coupon handler the
discount applied is round-half-up of `subtotal * value / 100` when the type
is `percent` and exactly `value` when the type is `fixed`; no cap against
the subtotal is applied, so a fixed discount may exceed the subtotal. -/
theorem couponDiscount_amended (c : Coupon) (subtotal d : Nat)
    (h : handleApplyCoupon (some c) subtotal = some d) :
    d = (if c.type = .percent then (subtotal * c.value + 50) / 100 else c.value) := by
  unfold handleApplyCoupon at h
  dsimp only at h
  split at h
  · exact absurd h (by simp)
  · cases h' : c.type <;>
      simp only [Option.some.injEq] at h <;>
      simp [← h, couponDiscount, roundPercent, h']

/-- C4 amended witness: the spec's percent example — 10 percent on 3480
yields discount 348. -/
theorem couponDiscount_amended_witness :
    348 = (if pctCoupon.type = CouponType.percent
             then (3480 * pctCoupon.value + 50) / 100 else pctCoupon.value) :=
  couponDiscount_amended pctCoupon 3480 348 (by decide)

/-! ## C1 — createOrder amount computation -/

/-- A left fold that adds `f x` at each step computes the sum of the image. -/
theorem foldl_add_map {α : Type} (f : α → Nat) (l : List α) (a : Nat) :
    l.foldl (fun s x => s + f x) a = a + (l.map f).sum := by
  induction l generalizing a with
  | nil => simp
  | cons x l ih =>
    rw [List.foldl_cons, ih (a + f x), List.map_cons, List.sum_cons]
    omega

/-- The subtotal reduction equals the specified per-item sum. -/
theorem orderSubtotal_eq_sum (items : List OrderItem) :
    orderSubtotal items
      = (items.map (fun it =>
          it.qty * (it.unitPrice + (it.options.map SelectedOption.price).sum))).sum := by
  have h := foldl_add_map
    (fun it => (it.unitPrice + optionsPrice it.options) * it.qty) items 0
  unfold orderSubtotal
  rw [h, Nat.zero_add]
  congr 1
  apply List.map_congr_left
  intro it _
  have hopt : optionsPrice it.options = (it.options.map SelectedOption.price).sum := by
    have := foldl_add_map SelectedOption.price it.options 0
    unfold optionsPrice
    rw [this, Nat.zero_add]
  rw [hopt, Nat.mul_comm]

/-- C1: for every non-empty item list and every channel, the created order's
amounts satisfy: subtotal is the per-item sum of `qty * (unitPrice + option
prices)`; the service fee field is round-half-up of a tenth of the subtotal
when the channel is dine_in and absent otherwise (a zero fee is omitted);
the delivery fee field is the flat 500 exactly when the channel is
delivery; discounts are 0; total = subtotal + serviceFee + deliveryFee -
discounts. On the end-to-end example (one item at 2890 with a 590 option,
dine_in) this gives subtotal 3480, service fee 348, total 3828. -/
theorem createOrderAmounts_correct (items : List OrderItem) (channel : OrderChannel)
    (hne : items ≠ []) :
    (createOrderAmounts items channel).subtotal
        = (items.map (fun it =>
            it.qty * (it.unitPrice + (it.options.map SelectedOption.price).sum))).sum ∧
    (createOrderAmounts items channel).fees.service
        = (if channel = .dine_in
            then orUndefined (roundTenth (orderSubtotal items)) else none) ∧
    (createOrderAmounts items channel).fees.delivery
        = (if channel = .delivery then some 500 else none) ∧
    (createOrderAmounts items channel).discounts = 0 ∧
    (createOrderAmounts items channel).total
        = (createOrderAmounts items channel).subtotal
          + (if channel = .dine_in then roundTenth (orderSubtotal items) else 0)
          + (if channel = .delivery then 500 else 0)
          - (createOrderAmounts items channel).discounts ∧
    createOrderAmounts exampleItems .dine_in
        = { subtotal := 3480, discounts := 0,
            fees := { service := some 348, delivery := none }, total := 3828 } := by
  refine ⟨orderSubtotal_eq_sum items, ?_, ?_, rfl, ?_, by decide⟩
  · cases channel <;> rfl
  · cases channel <;> rfl
  · cases channel <;>
      simp [createOrderAmounts, serviceFeeOf, deliveryFeeOf]

/-- C1 witness: the theorem instantiated at the end-to-end example. -/
theorem createOrderAmounts_correct_witness :
    exampleItems ≠ [] ∧
    createOrderAmounts exampleItems .dine_in
      = { subtotal := 3480, discounts := 0,
          fees := { service := some 348, delivery := none }, total := 3828 } :=
  ⟨by decide, (createOrderAmounts_correct exampleItems .dine_in (by decide)).2.2.2.2.2⟩

/-! ## C5 — offset pagination -/

/-- C5: the executor computes `offset = (page-1)*limit` and returns, for every
page and limit in range, exactly the window of the filtered sorted sequence
obtained by over-fetching `offset+limit` records and discarding the first
`offset` (the `offset = 0` branch, which issues `limit` alone, agrees with
this window); `total` is the independent count and `totalPages` is the
ceiling of `total / limit`, characterized as the least `k` with
`total ≤ k * limit`. Consequently page 3 at limit 20 returns exactly
positions 41-60 of what page 1 at limit 60 returns. -/
theorem findWithQuery_pagination (α : Type) (docs : List α) (page limit : Nat)
    (hpage : 1 ≤ page) (hlimit : 1 ≤ limit) (hmax : limit ≤ 100) :
    (findWithQuery docs page limit).items
        = (docs.take ((page - 1) * limit + limit)).drop ((page - 1) * limit) ∧
    (findWithQuery docs page limit).total = docs.length ∧
    (∀ k : Nat, (findWithQuery docs page limit).totalPages ≤ k ↔ docs.length ≤ k * limit) ∧
    (findWithQuery docs page limit).currentPage = page ∧
    (findWithQuery docs 3 20).items = ((findWithQuery docs 1 60).items).drop 40 := by
  refine ⟨?_, rfl, ?_, rfl, ?_⟩
  · show paginate docs page limit = _
    unfold paginate
    dsimp only
    split
    · rfl
    · rename_i h
      have hoff : (page - 1) * limit = 0 := by omega
      rw [hoff, List.drop_zero, Nat.zero_add]
  · intro k
    show ceilDiv docs.length limit ≤ k ↔ _
    unfold ceilDiv
    rw [Nat.div_le_iff_le_mul_add_pred hlimit, Nat.mul_comm k limit]
    omega
  · show paginate docs 3 20 = (paginate docs 1 60).drop 40
    unfold paginate
    norm_num

/-- C5 witness: the theorem instantiated on a 70-record data set at page 3,
limit 20. -/
theorem findWithQuery_pagination_witness :
    (findWithQuery (List.range 70) 3 20).items
      = ((findWithQuery (List.range 70) 1 60).items).drop 40 :=
  (findWithQuery_pagination Nat (List.range 70) 3 20
    (by decide) (by decide) (by decide)).2.2.2.2

/-! ## C3 — validateCoupon is total with fixed short-circuit order -/

/-- C3: `validateCoupon` is total — for every store state, code and subtotal
it returns exactly one of the six outcomes {not found, inactive, not yet
valid, expired, below minimum, valid} — it depends on the code only through
its upper-cased normalization, and the checks short-circuit in exactly the
order listed: in particular a coupon that is found but inactive reports the
inactive outcome whatever its validity window, so an inactive and expired
coupon reports inactive, not expired. -/
theorem validateCoupon_total_ordered :
    (∀ coupons code₁ code₂ subtotal now, jsToUpper code₁ = jsToUpper code₂ →
        validateCoupon coupons code₁ subtotal now
          = validateCoupon coupons code₂ subtotal now) ∧
    (∀ coupons code subtotal now,
        validateCoupon coupons code subtotal now = notFoundRes ∨
        validateCoupon coupons code subtotal now = inactiveRes ∨
        validateCoupon coupons code subtotal now = notYetValidRes ∨
        validateCoupon coupons code subtotal now = expiredRes ∨
        (∃ m, validateCoupon coupons code subtotal now = belowMinimumRes m) ∨
        (∃ c, validateCoupon coupons code subtotal now = validRes c)) ∧
    (∀ coupons code subtotal now,
        findByCode coupons code = none →
        validateCoupon coupons code subtotal now = notFoundRes) ∧
    (∀ coupons code subtotal now c,
        findByCode coupons code = some c → c.active = false →
        validateCoupon coupons code subtotal now = inactiveRes) ∧
    (∀ coupons code subtotal now c,
        findByCode coupons code = some c → c.active = true → now < c.validFrom →
        validateCoupon coupons code subtotal now = notYetValidRes) ∧
    (∀ coupons code subtotal now c,
        findByCode coupons code = some c → c.active = true → c.validFrom ≤ now →
        c.validTo < now →
        validateCoupon coupons code subtotal now = expiredRes) ∧
    (∀ coupons code subtotal now c,
        findByCode coupons code = some c → c.active = true → c.validFrom ≤ now →
        now ≤ c.validTo → minSubtotalBlocks c.minSubtotal subtotal = true →
        validateCoupon coupons code subtotal now
          = belowMinimumRes (c.minSubtotal.getD 0)) ∧
    (∀ coupons code subtotal now c,
        findByCode coupons code = some c → c.active = true → c.validFrom ≤ now →
        now ≤ c.validTo → minSubtotalBlocks c.minSubtotal subtotal = false →
        validateCoupon coupons code subtotal now = validRes c) := by
  refine ⟨?_, ?_, ?_, ?_, ?_, ?_, ?_, ?_⟩
  · intro coupons code₁ code₂ subtotal now h
    unfold validateCoupon findByCode
    rw [h]
  · intro coupons code subtotal now
    unfold validateCoupon
    cases hfind : findByCode coupons code with
    | none => exact Or.inl rfl
    | some c =>
      dsimp only
      split
      · exact Or.inr (Or.inl rfl)
      · split
        · exact Or.inr (Or.inr (Or.inl rfl))
        · split
          · exact Or.inr (Or.inr (Or.inr (Or.inl rfl)))
          · split
            · exact Or.inr (Or.inr (Or.inr (Or.inr (Or.inl ⟨_, rfl⟩))))
            · exact Or.inr (Or.inr (Or.inr (Or.inr (Or.inr ⟨_, rfl⟩))))
  · intro coupons code subtotal now h
    unfold validateCoupon
    rw [h]
    rfl
  · intro coupons code subtotal now c h ha
    unfold validateCoupon
    rw [h]
    simp [ha, inactiveRes]
  · intro coupons code subtotal now c h ha h1
    unfold validateCoupon
    rw [h]
    simp [ha, h1, notYetValidRes]
  · intro coupons code subtotal now c h ha h1 h2
    unfold validateCoupon
    rw [h]
    simp [ha, Nat.not_lt.mpr h1, h2, expiredRes]
  · intro coupons code subtotal now c h ha h1 h2 h3
    unfold validateCoupon
    rw [h]
    simp [ha, Nat.not_lt.mpr h1, Nat.not_lt.mpr h2, h3, belowMinimumRes]
  · intro coupons code subtotal now c h ha h1 h2 h3
    unfold validateCoupon
    rw [h]
    simp [ha, Nat.not_lt.mpr h1, Nat.not_lt.mpr h2, h3, validRes]

/-- C3 witness: a coupon that is both inactive and expired (now = 20 is past
validTo = 10) reports the inactive outcome. -/
theorem validateCoupon_total_ordered_witness :
    findByCode [staleCoupon] "old" = some staleCoupon ∧
    staleCoupon.active = false ∧
    staleCoupon.validTo < 20 ∧
    validateCoupon [staleCoupon] "old" 100 20 = inactiveRes :=
  ⟨by decide, by decide, by decide,
    validateCoupon_total_ordered.2.2.2.1 [staleCoupon] "old" 100 20 staleCoupon
      (by decide) (by decide)⟩

/-! ## C9 — product text search is an in-memory post-filter -/

/-- C9: with a (non-empty) search term supplied, the returned products are
exactly the materialized, sliced page filtered in memory by the
case-insensitive name/description containment predicate — so every returned
product is an element of the current page matching the term — while `total`
and `totalPages` are identical to the search-free query, coming from the
count query taken before the search filter. -/
theorem productFindWithQuery_search_post_filter (docs : List Product)
    (page limit : Nat) (term : String) (hterm : term ≠ "") :
    ((productFindWithQuery docs page limit (some term)).items
        = (paginate docs page limit).filter (productMatchesSearch term)) ∧
    (∀ p ∈ (productFindWithQuery docs page limit (some term)).items,
        p ∈ paginate docs page limit ∧ productMatchesSearch term p = true) ∧
    ((productFindWithQuery docs page limit (some term)).total
        = (productFindWithQuery docs page limit none).total) ∧
    ((productFindWithQuery docs page limit (some term)).totalPages
        = (productFindWithQuery docs page limit none).totalPages) ∧
    ((productFindWithQuery docs page limit (some term)).total = docs.length) := by
  refine ⟨?_, ?_, rfl, rfl, rfl⟩
  · unfold productFindWithQuery
    dsimp only
    rw [if_neg hterm]
  · intro p hp
    unfold productFindWithQuery at hp
    dsimp only at hp
    rw [if_neg hterm] at hp
    exact List.mem_filter.mp hp

/-- C9 witness: the theorem instantiated on two products with term "URG",
which matches only the hamburger, leaving `total` at 2. -/
theorem productFindWithQuery_search_post_filter_witness :
    ((productFindWithQuery sampleProducts 1 20 (some "URG")).items
        = (paginate sampleProducts 1 20).filter (productMatchesSearch "URG")) ∧
    (productFindWithQuery sampleProducts 1 20 (some "URG")).total
        = sampleProducts.length :=
  ⟨(productFindWithQuery_search_post_filter sampleProducts 1 20 "URG" (by decide)).1,
   (productFindWithQuery_search_post_filter sampleProducts 1 20 "URG" (by decide)).2.2.2.2⟩

/-! ## C10 — addPayment reads first, appends, changes nothing else -/

/-- Updating the document with key `id` applies `f` to the lookup at `id` and
leaves every other lookup untouched. -/
theorem findById_storeUpdate (store : OrderStore) (id : String) (f : Order → Order)
    (pid : String) :
    findById (storeUpdate store id f) pid
      = (findById store pid).map (fun o => if pid = id then f o else o) := by
  unfold findById storeUpdate
  rw [List.find?_map]
  have hp : ((fun (e : String × Order) => e.1 == pid)
        ∘ (fun (e : String × Order) => if e.1 == id then (e.1, f e.2) else e))
      = fun e => e.1 == pid := by
    funext e
    by_cases h : e.1 = id <;> simp [h]
  rw [hp]
  cases hf : store.find? (fun e => e.1 == pid) with
  | none => rfl
  | some e₀ =>
    have hkey : e₀.1 = pid := by
      have := List.find?_some hf
      simpa using this
    by_cases h : pid = id <;> simp [hkey, h]

/-- C10: `addPayment` reads the order first; when the id does not resolve it
fails with an error (no store is produced, so the store is unchanged on
failure); when the order exists it persists the previous payments sequence
(empty when the field was absent) with the new payment appended at the end,
leaving items, amounts, status and channel of the order — and every other
document — unchanged. -/
theorem addPayment_spec :
    (∀ (store : OrderStore) (id : String) (p : Payment) (now : Nat),
        findById store id = none →
        addPayment store id p now
          = .error "Failed to add payment: Error: Order not found") ∧
    (∀ (store : OrderStore) (id : String) (p : Payment) (now : Nat) (o : Order),
        findById store id = some o →
        ∃ store', addPayment store id p now = .ok store' ∧
          (∃ o', findById store' id = some o' ∧
              o'.payments = some (o.payments.getD [] ++ [p]) ∧
              o'.items = o.items ∧ o'.amounts = o.amounts ∧
              o'.status = o.status ∧ o'.channel = o.channel) ∧
          (∀ j, j ≠ id → findById store' j = findById store j)) := by
  constructor
  · intro store id p now h
    unfold addPayment
    rw [h]
  · intro store id p now o h
    refine ⟨storeUpdate store id
        (fun doc => { doc with payments := some (o.payments.getD [] ++ [p]),
                               updatedAt := now }), ?_, ?_, ?_⟩
    · unfold addPayment
      rw [h]
    · refine ⟨{ o with payments := some (o.payments.getD [] ++ [p]), updatedAt := now },
        ?_, rfl, rfl, rfl, rfl, rfl⟩
      rw [findById_storeUpdate, h]
      simp
    · intro j hj
      rw [findById_storeUpdate]
      cases findById store j with
      | none => rfl
      | some o' => simp [hj]

/-- C10 witness: appending a payment to the sample store's only order. -/
theorem addPayment_spec_witness :
    ∃ store', addPayment sampleStore "o1" samplePayment 9 = .ok store' ∧
      (∃ o', findById store' "o1" = some o' ∧
          o'.payments = some (sampleOrder.payments.getD [] ++ [samplePayment]) ∧
          o'.items = sampleOrder.items ∧ o'.amounts = sampleOrder.amounts ∧
          o'.status = sampleOrder.status ∧ o'.channel = sampleOrder.channel) ∧
      (∀ j, j ≠ "o1" → findById store' j = findById sampleStore j) :=
  addPayment_spec.2 sampleStore "o1" samplePayment 9 sampleOrder (by decide)

/-! ## C7 — analytics groupings, sums and top products -/

/-- A key-preserving conditional update of an association list acts on
lookups pointwise. -/
theorem lookupStat_map (l : List (String × ProductStat)) (k : String) (A B : Nat)
    (pid : String) :
    lookupStat (l.map (fun e =>
        if e.1 == k then
          (e.1, { e.2 with quantity := e.2.quantity + A, revenue := e.2.revenue + B })
        else e)) pid
      = (lookupStat l pid).map (fun st =>
          if pid = k then { st with quantity := st.quantity + A, revenue := st.revenue + B }
          else st) := by
  unfold lookupStat
  rw [List.find?_map]
  have hp : ((fun (e : String × ProductStat) => e.1 == pid)
        ∘ (fun (e : String × ProductStat) =>
            if e.1 == k then
              (e.1, { e.2 with quantity := e.2.quantity + A, revenue := e.2.revenue + B })
            else e))
      = fun e => e.1 == pid := by
    funext e
    by_cases h : e.1 = k <;> simp [h]
  rw [hp]
  cases hf : l.find? (fun e => e.1 == pid) with
  | none => rfl
  | some e₀ =>
    have hkey : e₀.1 = pid := by simpa using List.find?_some hf
    by_cases h : pid = k <;> simp [hkey, h]

/-- How `statInsert` changes the lookup at any key: the item's own product id
receives its quantity and revenue contribution (starting from zero when the
key was absent); every other key is untouched. -/
theorem lookupStat_statInsert (stats : List (String × ProductStat)) (it : OrderItem)
    (pid : String) :
    lookupStat (statInsert stats it) pid
      = if pid = it.productId then
          some (match lookupStat stats pid with
                | some st => { st with quantity := st.quantity + it.qty,
                                       revenue := st.revenue + it.unitPrice * it.qty }
                | none => { name := it.name, quantity := it.qty,
                            revenue := it.unitPrice * it.qty })
        else lookupStat stats pid := by
  unfold statInsert
  dsimp only
  by_cases hpres : (lookupStat stats it.productId).isSome
  · rw [if_pos hpres, lookupStat_map]
    by_cases hpid : pid = it.productId
    · subst hpid
      obtain ⟨st, hst⟩ := Option.isSome_iff_exists.mp hpres
      rw [hst]
      simp
    · rw [if_neg hpid]
      cases lookupStat stats pid <;> simp [hpid]
  · rw [if_neg hpres, lookupStat_map]
    have hnone : lookupStat stats it.productId = none :=
      Option.not_isSome_iff_eq_none.mp hpres
    have hfindnone : stats.find? (fun e => e.1 == it.productId) = none := by
      have := hnone
      unfold lookupStat at this
      exact Option.map_eq_none'.mp this
    by_cases hpid : pid = it.productId
    · subst hpid
      have happ : lookupStat
          (stats ++ [(it.productId, { name := it.name, quantity := 0, revenue := 0 })])
            it.productId
          = some { name := it.name, quantity := 0, revenue := 0 } := by
        unfold lookupStat
        rw [List.find?_append, hfindnone]
        simp
      rw [happ, hnone]
      simp
    · have hne2 : ¬(it.productId = pid) := fun h => hpid h.symm
      have happ : lookupStat
          (stats ++ [(it.productId, { name := it.name, quantity := 0, revenue := 0 })]) pid
          = lookupStat stats pid := by
        unfold lookupStat
        rw [List.find?_append]
        have hx : List.find? (fun (e : String × ProductStat) => e.1 == pid)
            [(it.productId, { name := it.name, quantity := 0, revenue := 0 })] = none := by
          simp [hne2]
        rw [hx]
        cases stats.find? (fun e => e.1 == pid) <;> rfl
      rw [happ, if_neg hpid]
      cases lookupStat stats pid <;> simp [hpid]

/-- Folding `statInsert` over a list of items adds, at every key, exactly the
total quantity and `unitPrice * qty` revenue of the matching items. -/
theorem statAgg_foldl : ∀ (items : List OrderItem) (acc : List (String × ProductStat))
    (pid : String),
    statAgg (items.foldl statInsert acc) pid
      = match statAgg acc pid with
        | some qr => some (qr.1 + qtySold pid items, qr.2 + revenueSold pid items)
        | none =>
            if items.any (fun x => x.productId == pid)
            then some (qtySold pid items, revenueSold pid items)
            else none := by
  intro items
  induction items with
  | nil =>
    intro acc pid
    cases h : statAgg acc pid <;> simp [h, qtySold, revenueSold]
  | cons it items ih =>
    intro acc pid
    rw [List.foldl_cons, ih]
    unfold statAgg
    rw [lookupStat_statInsert]
    by_cases hpid : pid = it.productId
    · rw [if_pos hpid]
      cases hl : lookupStat acc pid with
      | none =>
        simp only [hl, Option.map_none', Option.map_some']
        simp [qtySold, revenueSold, List.filter_cons, List.any_cons, hpid]
      | some st =>
        simp only [hl, Option.map_none', Option.map_some']
        simp [qtySold, revenueSold, List.filter_cons, hpid]
        omega
    · rw [if_neg hpid]
      have hne : ¬(it.productId = pid) := fun h => hpid h.symm
      cases hl : lookupStat acc pid with
      | none =>
        simp only [hl, Option.map_none', Option.map_some']
        simp [qtySold, revenueSold, List.filter_cons, List.any_cons, hne]
      | some st =>
        simp only [hl, Option.map_none', Option.map_some']
        simp [qtySold, revenueSold, List.filter_cons, hne]

/-- `productStats` is the item-wise fold over the flattened item list. -/
theorem productStats_eq_foldl (orders : List Order) :
    productStats orders = (allItems orders).foldl statInsert [] := by
  unfold productStats allItems
  rw [List.foldl_flatten, List.foldl_map]

/-- `statInsert` never introduces a duplicate key: it appends the key only
when it is absent. -/
theorem keys_statInsert_nodup (stats : List (String × ProductStat)) (it : OrderItem)
    (h : (stats.map Prod.fst).Nodup) :
    ((statInsert stats it).map Prod.fst).Nodup := by
  unfold statInsert
  dsimp only
  have hfst : ∀ (l : List (String × ProductStat)),
      (l.map (fun e =>
        if e.1 == it.productId then
          (e.1, { e.2 with quantity := e.2.quantity + it.qty,
                           revenue := e.2.revenue + it.unitPrice * it.qty })
        else e)).map Prod.fst = l.map Prod.fst := by
    intro l
    rw [List.map_map]
    apply List.map_congr_left
    intro e _
    by_cases he : e.1 = it.productId <;> simp [he]
  rw [hfst]
  split
  · exact h
  · rename_i habs
    have hnone : lookupStat stats it.productId = none :=
      Option.not_isSome_iff_eq_none.mp habs
    have hfindnone : stats.find? (fun e => e.1 == it.productId) = none := by
      unfold lookupStat at hnone
      exact Option.map_eq_none'.mp hnone
    have hnotmem : it.productId ∉ stats.map Prod.fst := by
      intro hmem
      obtain ⟨e, he, hfst'⟩ := List.mem_map.mp hmem
      have := List.find?_eq_none.mp hfindnone e he
      simp [hfst'] at this
    simp [List.nodup_append, h, hnotmem]

/-- The keys of `productStats` never repeat. -/
theorem productStats_keys_nodup (orders : List Order) :
    ((productStats orders).map Prod.fst).Nodup := by
  rw [productStats_eq_foldl]
  generalize allItems orders = items
  have : ∀ (l : List OrderItem) (acc : List (String × ProductStat)),
      (acc.map Prod.fst).Nodup → ((l.foldl statInsert acc).map Prod.fst).Nodup := by
    intro l
    induction l with
    | nil => intro acc h; exact h
    | cons it l ih =>
      intro acc h
      rw [List.foldl_cons]
      exact ih _ (keys_statInsert_nodup acc it h)
  exact this items [] (by simp)

/-- In an association list without duplicate keys, membership determines the
lookup. -/
theorem lookupStat_of_mem (l : List (String × ProductStat)) (pid : String)
    (st : ProductStat) (hnd : (l.map Prod.fst).Nodup) (hmem : (pid, st) ∈ l) :
    lookupStat l pid = some st := by
  induction l with
  | nil => cases hmem
  | cons e l ih =>
    rw [List.map_cons, List.nodup_cons] at hnd
    cases List.mem_cons.mp hmem with
    | inl heq =>
      subst heq
      simp [lookupStat]
    | inr htail =>
      have hkey : e.1 ≠ pid := by
        intro hk
        exact hnd.1 (hk ▸ List.mem_map.mpr ⟨(pid, st), htail, rfl⟩)
      unfold lookupStat
      rw [List.find?_cons_of_neg _ (by simp [hkey])]
      exact ih hnd.2 htail

/-- The fold computing `ordersByStatus` counts, over any starting map, the
orders with each status. -/
theorem ordersByStatus_count (orders : List Order) (s : OrderStatus) :
    ordersByStatus orders s = (orders.filter (fun o => o.status == s)).length := by
  have key : ∀ (l : List Order) (m : OrderStatus → Nat),
      (l.foldl (fun m o => bumpStatus m o.status) m) s
        = m s + (l.filter (fun o => o.status == s)).length := by
    intro l
    induction l with
    | nil => intro m; simp
    | cons o l ih =>
      intro m
      rw [List.foldl_cons, ih]
      by_cases h : o.status = s
      · simp [bumpStatus, List.filter_cons, h]
        omega
      · simp [bumpStatus, List.filter_cons, h, Ne.symm h]
  have := key orders (fun _ => 0)
  simpa [ordersByStatus] using this

/-- The fold computing `ordersByChannel` counts the orders with each channel. -/
theorem ordersByChannel_count (orders : List Order) (ch : OrderChannel) :
    ordersByChannel orders ch = (orders.filter (fun o => o.channel == ch)).length := by
  have key : ∀ (l : List Order) (m : OrderChannel → Nat),
      (l.foldl (fun m o => bumpChannel m o.channel) m) ch
        = m ch + (l.filter (fun o => o.channel == ch)).length := by
    intro l
    induction l with
    | nil => intro m; simp
    | cons o l ih =>
      intro m
      rw [List.foldl_cons, ih]
      by_cases h : o.channel = ch
      · simp [bumpChannel, List.filter_cons, h]
        omega
      · simp [bumpChannel, List.filter_cons, h, Ne.symm h]
  have := key orders (fun _ => 0)
  simpa [ordersByChannel] using this

/-- The per-status filter counts over the eight statuses sum to the number of
orders. -/
theorem status_filter_counts_sum (orders : List Order) :
    (allStatuses.map
      (fun s => (orders.filter (fun o => o.status == s)).length)).sum
      = orders.length := by
  induction orders with
  | nil => rfl
  | cons o l ih =>
    have hstep : ∀ s : OrderStatus, ((o :: l).filter (fun x => x.status == s)).length
        = (if o.status = s then 1 else 0) + (l.filter (fun x => x.status == s)).length := by
      intro s
      by_cases h : o.status = s <;> simp [List.filter_cons, h] <;> omega
    simp only [hstep, allStatuses, List.map_cons, List.map_nil, List.sum_cons,
      List.sum_nil] at ih ⊢
    cases ho : o.status <;> simp [ho] <;> omega

/-- C7: the analytics maps assign a count to every member of the status and
channel enumerations (the count of matching orders, 0 when none match — no
key is omitted); the eight status counts sum to `totalOrders`; and
`topProducts` groups items by product id, summing `qty` and
`unitPrice * qty` (excluding option surcharges), is sorted descending by
revenue, and has at most 10 entries. -/
theorem getAnalytics_groupings (orders : List Order) :
    (∀ s : OrderStatus, ordersByStatus orders s
        = (orders.filter (fun o => o.status == s)).length) ∧
    (∀ ch : OrderChannel, ordersByChannel orders ch
        = (orders.filter (fun o => o.channel == ch)).length) ∧
    (allStatuses.map (ordersByStatus orders)).sum = orders.length ∧
    (topProducts orders).length ≤ 10 ∧
    (topProducts orders).Pairwise (fun a b => b.2.revenue ≤ a.2.revenue) ∧
    (∀ pid st, (pid, st) ∈ topProducts orders →
        st.quantity = qtySold pid (allItems orders) ∧
        st.revenue = revenueSold pid (allItems orders)) := by
  refine ⟨ordersByStatus_count orders, ordersByChannel_count orders, ?_, ?_, ?_, ?_⟩
  · have h : (allStatuses.map (ordersByStatus orders)).sum
        = (allStatuses.map
            (fun s => (orders.filter (fun o => o.status == s)).length)).sum := by
      congr 1
      exact List.map_congr_left (fun s _ => ordersByStatus_count orders s)
    rw [h, status_filter_counts_sum]
  · show (((productStats orders).mergeSort revenueDesc).take 10).length ≤ 10
    rw [List.length_take]
    exact Nat.min_le_left _ _
  · have hsorted : ((productStats orders).mergeSort revenueDesc).Pairwise
        (fun a b => revenueDesc a b = true) :=
      List.sorted_mergeSort
        (by
          intro a b c hab hbc
          simp only [revenueDesc, decide_eq_true_eq] at *
          omega)
        (by
          intro a b
          simp only [revenueDesc, Bool.or_eq_true, decide_eq_true_eq]
          omega)
        (productStats orders)
    have h2 : ((productStats orders).mergeSort revenueDesc).Pairwise
        (fun a b => b.2.revenue ≤ a.2.revenue) :=
      hsorted.imp (fun h => by simpa [revenueDesc] using h)
    exact List.Pairwise.sublist (List.take_sublist _ _) h2
  · intro pid st hmem
    have hmem2 : (pid, st) ∈ (productStats orders).mergeSort revenueDesc :=
      (List.take_sublist _ _).subset hmem
    have hmem3 : (pid, st) ∈ productStats orders := List.mem_mergeSort.mp hmem2
    have hlook : lookupStat (productStats orders) pid = some st :=
      lookupStat_of_mem _ _ _ (productStats_keys_nodup orders) hmem3
    have hagg := statAgg_foldl (allItems orders) [] pid
    rw [← productStats_eq_foldl] at hagg
    have hval : statAgg (productStats orders) pid = some (st.quantity, st.revenue) := by
      unfold statAgg
      rw [hlook]
      rfl
    rw [hval] at hagg
    by_cases hany : (allItems orders).any (fun x => x.productId == pid)
    · simp only [statAgg, lookupStat, List.find?_nil, Option.map_none', if_pos hany] at hagg
      have hpair := Option.some.inj hagg
      exact ⟨congrArg Prod.fst hpair, congrArg Prod.snd hpair⟩
    · simp only [statAgg, lookupStat, List.find?_nil, Option.map_none', if_neg hany] at hagg
      exact absurd hagg (by simp)

/-- C7 witness: on a single sample order the sole aggregate entry records
quantity 1 and revenue 2890 for product "p1". -/
theorem getAnalytics_groupings_witness :
    ("p1", ({ name := "burger", quantity := 1, revenue := 2890 } : ProductStat))
        ∈ topProducts [sampleOrder] ∧
    ({ name := "burger", quantity := 1, revenue := 2890 } : ProductStat).quantity
        = qtySold "p1" (allItems [sampleOrder]) ∧
    ({ name := "burger", quantity := 1, revenue := 2890 } : ProductStat).revenue
        = revenueSold "p1" (allItems [sampleOrder]) := by
  have hps : productStats [sampleOrder]
      = [("p1", { name := "burger", quantity := 1, revenue := 2890 })] := by
    decide
  have hmem : ("p1", ({ name := "burger", quantity := 1, revenue := 2890 } : ProductStat))
      ∈ topProducts [sampleOrder] := by
    unfold topProducts
    rw [hps, List.mergeSort_singleton]
    simp
  exact ⟨hmem,
    ((getAnalytics_groupings [sampleOrder]).2.2.2.2.2 "p1" _ hmem).1,
    ((getAnalytics_groupings [sampleOrder]).2.2.2.2.2 "p1" _ hmem).2⟩

end CardapioModel
